import Mathlib

/-!
Shallow embedding of the concurrent directory-cleaning engine of
temp-deleter-go (internal/cleaner/cleaner.go), together with proofs about
its counting invariants, deletion policy, traversal error handling, result
merging and size formatting.

Modelling conventions:
* Machine `int64` fields are modelled as `Int`.  Counter fields are
  incremented once per visited entry and size fields accumulate `info.Size()`
  values, so wrap-around of 64-bit addition is not modelled.
* A filesystem tree is an `Entry` value; every filesystem operation the code
  can perform on an entry (lstat while walking the parent, reading a
  directory, the open-for-write in-use probe and its close, deletion) carries
  its outcome as a boolean on the entry, which makes one run of the walker a
  pure function of the tree.
* Error messages: the code formats messages with `fmt.Sprintf` including the
  OS error's text.  The rendered error text is abstracted away; a message is
  modelled as its fixed prefix plus the path, which preserves count, order
  and which entry each message is about.
* Paths are joined with a fixed "/" separator (filepath.Join's cleaning is
  irrelevant to the claims, which only depend on base names).
* `os.RemoveAll` failure is modelled as leaving the subtree in place (the
  real call may remove part of the subtree before failing; no claim depends
  on that distinction).
-/

namespace TempDeleter

/-- Host platform, fixed at process start (runtime.GOOS in the source). -/
inductive Platform where
  | windows
  | other
  deriving DecidableEq

/-- One filesystem entry as seen by the cleaner, with the outcome of each
filesystem operation the code may perform on it during a run:
`lstatOk` — whether lstat of the entry succeeds when its parent directory is
walked (false models a vanished or unstattable entry; for the root it models
the lstat done at the start of filepath.Walk);
for files, `openOk` and `closeOk` — whether the `os.OpenFile(path, O_WRONLY, 0)`
in-use probe and the following `Close` succeed;
`deleteOk` — whether `os.Remove` (file) or `os.RemoveAll` (directory) succeeds;
for directories, `readOk` — whether reading the directory's entry list
succeeds. -/
inductive Entry where
  | file (name : String) (size : Int) (lstatOk openOk closeOk deleteOk : Bool)
  | dir (name : String) (lstatOk readOk deleteOk : Bool) (children : List Entry)

/-- Base name of an entry (what filepath.Base returns for its path). -/
def Entry.name : Entry → String
  | .file n _ _ _ _ _ => n
  | .dir n _ _ _ _ => n

/-- Whether lstat of the entry succeeds. -/
def Entry.lstatOk : Entry → Bool
  | .file _ _ l _ _ _ => l
  | .dir _ l _ _ _ => l

/-- CleanupResult of cleaner.go (lines 27-40).  The wall-clock
`ProcessingTime` field is not modelled.  All `int64` counters are `Int`. -/
structure CleanupResult where
  TotalFiles : Int := 0
  TotalDirs : Int := 0
  TotalSize : Int := 0
  DeletedFiles : Int := 0
  DeletedDirs : Int := 0
  DeletedSize : Int := 0
  FailedFiles : Int := 0
  FailedDirs : Int := 0
  SkippedFiles : Int := 0
  SkippedDirs : Int := 0
  ErrorMessages : List String := []
  deriving DecidableEq

/-- The Cleaner configuration relevant to the counters: the host platform
consulted by shouldDelete and the dryRun flag (lines 43-47).  The logger is
a fire-and-forget sink and maxWorkers only bounds concurrency, neither
affects any counter. -/
structure Cleaner where
  plat : Platform
  dryRun : Bool
  deriving DecidableEq

/-- Membership in the protected Windows name set of shouldDelete
(cleaner.go line 205): exact string comparison against the three listed
names. -/
def protectedWindowsName (name : String) : Bool :=
  name == "desktop.ini" || name == "thumbs.db" || name == "Thumbs.db"

/-- The test `filepath.Base(path)[0] == '.'` of cleaner.go line 198: the
first byte of the base name is '.'.  Since '.' is ASCII and every UTF-8
continuation of a multi-byte character starts above 0x7f, the first byte is
'.' exactly when the first character is '.'.  filepath.Base never returns
an empty string; the empty case is vacuously false. -/
def startsWithDot (name : String) : Bool :=
  match name.data with
  | [] => false
  | ch :: _ => ch == '.'

/-- shouldDelete (cleaner.go lines 196-224).  The only parts of `path` and
`info` the code reads are the base name, whether the entry is a directory,
and (for files) the outcomes of the open-for-write probe and its close,
which are passed in directly. -/
def shouldDelete (plat : Platform) (baseName : String)
    (isDir openOk closeOk : Bool) : Bool :=
  if plat != Platform.windows && startsWithDot baseName then
    false
  else if plat == Platform.windows && protectedWindowsName baseName then
    false
  else if !isDir then
    openOk && closeOk
  else
    true

/-- The `err != nil` branch of the walk callback (cleaner.go lines 121-131).
`infoIsDir = some d` models a non-nil FileInfo whose IsDir() is `d`;
`none` models the nil FileInfo that filepath.Walk passes when lstat of the
entry failed.  The branch returns filepath.SkipDir, which filepath.Walk
never turns into an abort for this callback (see walkRoot). -/
def recordWalkError (r : CleanupResult) (path : String)
    (infoIsDir : Option Bool) : CleanupResult :=
  if infoIsDir = some true then
    { r with FailedDirs := r.FailedDirs + 1,
             ErrorMessages := r.ErrorMessages ++ ["Walk error for " ++ path] }
  else
    { r with FailedFiles := r.FailedFiles + 1,
             ErrorMessages := r.ErrorMessages ++ ["Walk error for " ++ path] }

/-- The error-free visit of a non-root file (cleaner.go lines 138-183):
count it, apply shouldDelete, then delete / simulate / record failure /
skip. -/
def visitFile (c : Cleaner) (path name : String) (size : Int)
    (openOk closeOk deleteOk : Bool) (r : CleanupResult) : CleanupResult :=
  let r := { r with TotalFiles := r.TotalFiles + 1,
                    TotalSize := r.TotalSize + size }
  if shouldDelete c.plat name false openOk closeOk then
    if c.dryRun then
      { r with DeletedFiles := r.DeletedFiles + 1,
               DeletedSize := r.DeletedSize + size }
    else if deleteOk then
      { r with DeletedFiles := r.DeletedFiles + 1,
               DeletedSize := r.DeletedSize + size }
    else
      { r with FailedFiles := r.FailedFiles + 1,
               ErrorMessages := r.ErrorMessages ++ ["Delete error for " ++ path] }
  else
    { r with SkippedFiles := r.SkippedFiles + 1 }

/-- The error-free visit of a non-root directory (cleaner.go lines 138-183).
Returns the updated result and whether the directory was actually removed
from the filesystem (eligible, not dry-run, RemoveAll succeeded), in which
case the walk's subsequent lstat of each already-listed child fails.
shouldDelete is called with a directory FileInfo, so the open probe
arguments are irrelevant (the probe only runs for files). -/
def visitDir (c : Cleaner) (path name : String) (deleteOk : Bool)
    (r : CleanupResult) : CleanupResult × Bool :=
  let r := { r with TotalDirs := r.TotalDirs + 1 }
  if shouldDelete c.plat name true true true then
    if c.dryRun then
      ({ r with DeletedDirs := r.DeletedDirs + 1 }, false)
    else if deleteOk then
      ({ r with DeletedDirs := r.DeletedDirs + 1 }, true)
    else
      ({ r with FailedDirs := r.FailedDirs + 1,
                ErrorMessages := r.ErrorMessages ++ ["Delete error for " ++ path] },
       false)
  else
    ({ r with SkippedDirs := r.SkippedDirs + 1 }, false)

/-- Path of a child entry inside `parent`. -/
def childPath (parent name : String) : String :=
  parent ++ "/" ++ name

mutual

/-- The recursive `walk` of the Go standard library's filepath.Walk applied
to a non-root entry whose lstat succeeded, running the callback of
cleanDirectory (cleaner.go lines 120-184).  For a file the callback runs
once with a nil error.  For a directory, filepath.Walk first reads the
child name list; if that fails the callback runs once with the error (the
FailedDirs branch) and the subtree is skipped; otherwise the callback runs
with a nil error and then each child is lstat-ed and walked.  If the
callback really removed the directory (RemoveAll succeeded in non-dry-run
mode), the lstat of every already-listed child fails, so each child takes
the nil-info error branch. -/
def walkEntry (c : Cleaner) (path : String) (e : Entry)
    (r : CleanupResult) : CleanupResult :=
  match e with
  | .file name size _ openOk closeOk deleteOk =>
      visitFile c path name size openOk closeOk deleteOk r
  | .dir name _ readOk deleteOk children =>
      if readOk then
        let p := visitDir c path name deleteOk r
        if p.2 then
          children.foldl
            (fun acc ch => recordWalkError acc (childPath path ch.name) none) p.1
        else
          walkChildren c path children p.1
      else
        recordWalkError r path (some true)

/-- Walks the listed children of a directory in order: each child is
lstat-ed; on lstat failure the callback runs with a nil FileInfo and the
walk continues with the siblings; otherwise the child is walked
recursively.  The callback only ever returns nil or filepath.SkipDir, and
filepath.Walk swallows SkipDir at both the lstat-failure and the
child-recursion call sites, so sibling processing always continues. -/
def walkChildren (c : Cleaner) (parent : String) (cs : List Entry)
    (r : CleanupResult) : CleanupResult :=
  match cs with
  | [] => r
  | ch :: rest =>
      let r :=
        if ch.lstatOk then walkEntry c (childPath parent ch.name) ch r
        else recordWalkError r (childPath parent ch.name) none
      walkChildren c parent rest r

end

/-- filepath.Walk(dirPath, callback) for an existing target (cleaner.go
line 120).  filepath.Walk lstats the root first: on failure the callback
runs once with a nil FileInfo.  On the root's own error-free visit the
callback hits the `path == dirPath` check and returns nil, so an error-free
root contributes nothing and only its children are processed; a root whose
directory read fails takes the error branch, which precedes the root check.
The callback returns only nil or filepath.SkipDir and filepath.Walk turns a
top-level SkipDir into nil, so filepath.Walk always returns nil here and
the trailing `if err != nil` block of cleanDirectory (lines 186-190) is
unreachable. -/
def walkRoot (c : Cleaner) (dirPath : String) (e : Entry) : CleanupResult :=
  if e.lstatOk then
    match e with
    | .file _ _ _ _ _ _ => {}
    | .dir _ _ readOk _ children =>
        if readOk then walkChildren c dirPath children {}
        else recordWalkError {} dirPath (some true)
  else
    recordWalkError {} dirPath none

/-- A cleanup target: the path handed to cleanDirectory together with the
filesystem state at that path; `none` models `os.Stat` failing with
IsNotExist. -/
structure Target where
  path : String
  fs : Option Entry

/-- cleanDirectory (cleaner.go lines 109-193): a missing target records one
skipped directory and returns at once; otherwise the tree is walked. -/
def cleanDirectory (c : Cleaner) (t : Target) : CleanupResult :=
  match t.fs with
  | none => { SkippedDirs := 1 }
  | some e => walkRoot c t.path e

/-- mergeResults (cleaner.go lines 234-248): adds every counter field of
`source` into `target` and appends the error messages of `source` to those
of `target`. -/
def mergeResults (target source : CleanupResult) : CleanupResult :=
  { TotalFiles := target.TotalFiles + source.TotalFiles
    TotalDirs := target.TotalDirs + source.TotalDirs
    TotalSize := target.TotalSize + source.TotalSize
    DeletedFiles := target.DeletedFiles + source.DeletedFiles
    DeletedDirs := target.DeletedDirs + source.DeletedDirs
    DeletedSize := target.DeletedSize + source.DeletedSize
    FailedFiles := target.FailedFiles + source.FailedFiles
    FailedDirs := target.FailedDirs + source.FailedDirs
    SkippedFiles := target.SkippedFiles + source.SkippedFiles
    SkippedDirs := target.SkippedDirs + source.SkippedDirs
    ErrorMessages := target.ErrorMessages ++ source.ErrorMessages }

/-- CleanDirectories (cleaner.go lines 67-107) with the partial results
merged in a fixed (sequential) order.  The workers produce exactly the
multiset of per-directory partial results; arrival order at the merge loop
is non-deterministic, which is covered by quantifying over permutations in
the theorems below.  ProcessingTime is not modelled. -/
def CleanDirectories (c : Cleaner) (targets : List Target) : CleanupResult :=
  (targets.map (cleanDirectory c)).foldl mergeResults {}

/-- The unit scaling loop of FormatSize (cleaner.go lines 256-260) with an
explicit structural fuel so that it evaluates inside the kernel: while n is
at least 1024, divide n by 1024, multiply d by 1024 and increment e.  The
fuel only bounds the iteration count; fmtLoopF_eq shows any fuel of at
least n computes the loop's exact fixpoint, and fmtLoop passes n itself. -/
def fmtLoopF : Nat → Nat → Nat → Nat → Nat × Nat
  | 0, _, d, e => (d, e)
  | fuel + 1, n, d, e =>
      if 1024 ≤ n then fmtLoopF fuel (n / 1024) (d * 1024) (e + 1) else (d, e)

/-- The unit scaling loop of FormatSize, started by the code with
n = bytes/1024, d = 1024, e = 0.  Returns the final divisor and unit
index. -/
def fmtLoop (n d e : Nat) : Nat × Nat :=
  fmtLoopF n n d e

/-- Round num/den (den positive) to the nearest integer, ties to even: the
rounding Go's %.1f formatting applies to the exact value of the formatted
float. -/
def roundHalfEven (num den : Nat) : Nat :=
  if 2 * (num % den) < den then num / den
  else if den < 2 * (num % den) then num / den + 1
  else if num / den % 2 = 0 then num / den else num / den + 1

/-- Rendering of num/den with exactly one fractional digit (the "%.1f"
verb applied to the exact quotient). -/
def oneDecimal (num den : Nat) : String :=
  toString (roundHalfEven (10 * num) den / 10) ++ "." ++
    toString (roundHalfEven (10 * num) den % 10)

/-- The characters of the Go string constant "KMGTPE" indexed by the
loop's unit index. -/
def unitLetters : List Char := ['K', 'M', 'G', 'T', 'P', 'E']

/-- FormatSize (cleaner.go lines 250-262).  For bytes below 1024,
including every negative value, the function returns the decimal rendering
followed by " B" without entering the loop.  Otherwise bytes is at least
1024 and float64(bytes)/float64(div) rendered by %.1f is modelled as exact
rational division rendered to one decimal with ties to even; this is exact
for bytes below 2^53, where both the int64-to-float conversion and the
division by a power of two are exact in binary floating point.  Indexing
"KMGTPE" out of range would panic in Go; the unit index stays at most 5
for every int64 input (see FormatSize theorems), so the getD default is
never consulted. -/
def FormatSize (bytes : Int) : String :=
  if bytes < 1024 then toString bytes ++ " B"
  else
    oneDecimal bytes.toNat (fmtLoop (bytes.toNat / 1024) 1024 0).1 ++ " " ++
      String.singleton (unitLetters.getD (fmtLoop (bytes.toNat / 1024) 1024 0).2 'K') ++ "B"

/-- Unit index chosen by FormatSize for a byte count of at least 1024. -/
def fmtExp (bytes : Int) : Nat :=
  (fmtLoop (bytes.toNat / 1024) 1024 0).2

mutual

/-- A tree contains no walk-time lstat failures and no really-deleted
directory with listed children: under this condition (and no other) every
visited file-kind tally lands on an entry that was first counted in
TotalFiles, see the C1 theorems.  Directory-read failures are allowed: they
tally FailedDirs, which the claimed file equation does not mention. -/
def fileTallySafe (c : Cleaner) : Entry → Bool
  | .file _ _ lOk _ _ _ => lOk
  | .dir name lOk readOk deleteOk cs =>
      lOk &&
        (!readOk ||
          ((!(!c.dryRun && shouldDelete c.plat name true true true && deleteOk) ||
              cs.isEmpty) &&
            fileTallySafeList c cs))

/-- fileTallySafe for every entry of a list. -/
def fileTallySafeList (c : Cleaner) : List Entry → Bool
  | [] => true
  | ch :: rest => fileTallySafe c ch && fileTallySafeList c rest

end

mutual

/-- Every deletion the real run attempts in the tree succeeds and every
eligible directory has no listed children: the exact condition under which
a dry run and a real run tally identically (see the C2 theorems). -/
def dryRealSafe (plat : Platform) : Entry → Bool
  | .file name _ _ openOk closeOk deleteOk =>
      !shouldDelete plat name false openOk closeOk || deleteOk
  | .dir name _ readOk deleteOk cs =>
      !readOk ||
        ((!shouldDelete plat name true true true || (deleteOk && cs.isEmpty)) &&
          dryRealSafeList plat cs)

/-- dryRealSafe for every entry of a list. -/
def dryRealSafeList (plat : Platform) : List Entry → Bool
  | [] => true
  | ch :: rest => dryRealSafe plat ch && dryRealSafeList plat rest

end

/-- fileTallySafe lifted to a whole target.  The root's own deletion flag is
irrelevant (the root is never a deletion candidate); a root whose directory
read fails only tallies FailedDirs, which the file equation ignores. -/
def targetFileTallySafe (c : Cleaner) (t : Target) : Bool :=
  match t.fs with
  | none => true
  | some (.file _ _ lOk _ _ _) => lOk
  | some (.dir _ lOk readOk _ cs) => lOk && (!readOk || fileTallySafeList c cs)

/-- dryRealSafe lifted to a whole target.  The root itself is never
classified or deleted, so only its children constrain the dry-run and real
runs to agree. -/
def targetDryRealSafe (plat : Platform) (t : Target) : Bool :=
  match t.fs with
  | none => true
  | some (.file _ _ _ _ _ _) => true
  | some (.dir _ _ readOk _ cs) => !readOk || dryRealSafeList plat cs

/-- Headroom of the file deletion tally: TotalFiles minus DeletedFiles. -/
def fileGap (r : CleanupResult) : Int :=
  r.TotalFiles - r.DeletedFiles

/-- Headroom of the directory deletion tally: TotalDirs minus DeletedDirs. -/
def dirGap (r : CleanupResult) : Int :=
  r.TotalDirs - r.DeletedDirs

/-- Imbalance of the per-file accounting equation:
DeletedFiles + FailedFiles + SkippedFiles - TotalFiles. -/
def fileTally (r : CleanupResult) : Int :=
  r.DeletedFiles + r.FailedFiles + r.SkippedFiles - r.TotalFiles

/-- The ten counter fields of a result as a list, in declaration order. -/
def counters (r : CleanupResult) : List Int :=
  [r.TotalFiles, r.TotalDirs, r.TotalSize, r.DeletedFiles, r.DeletedDirs,
   r.DeletedSize, r.FailedFiles, r.FailedDirs, r.SkippedFiles, r.SkippedDirs]

/-! Helper lemmas about the scaling loop. -/

/-- Any fuel of at least n lets the fueled loop reach its fixpoint: the
divisor gets multiplied by 1024 once per iteration, there are exactly
`Nat.log 1024 n` iterations, and the index counts them. -/
theorem fmtLoopF_eq (fuel : Nat) :
    ∀ n d e : Nat, n ≤ fuel →
      fmtLoopF fuel n d e = (d * 1024 ^ Nat.log 1024 n, e + Nat.log 1024 n) := by
  induction fuel with
  | zero =>
      intro n d e hn
      have hz : n = 0 := by omega
      subst hz
      simp [fmtLoopF, Nat.log_eq_zero_iff]
  | succ fuel ih =>
      intro n d e hn
      by_cases h : 1024 ≤ n
      · have hlt : n / 1024 < n := Nat.div_lt_self (by omega) (by omega)
        have hdivle : n / 1024 ≤ fuel := by omega
        have hpos : 0 < Nat.log 1024 n := Nat.log_pos (by omega) h
        have hdiv : Nat.log 1024 (n / 1024) = Nat.log 1024 n - 1 :=
          Nat.log_div_base 1024 n
        have hL : Nat.log 1024 n = (Nat.log 1024 n - 1) + 1 := by omega
        simp only [fmtLoopF, if_pos h]
        rw [ih (n / 1024) (d * 1024) (e + 1) hdivle, hdiv]
        simp only [Prod.mk.injEq]
        constructor
        · conv_rhs => rw [hL, pow_succ]
          ring
        · omega
      · have h0 : Nat.log 1024 n = 0 := Nat.log_eq_zero_iff.mpr (Or.inl (by omega))
        simp [fmtLoopF, h, h0]

/-- The loop with its own starting value as fuel computes the fixpoint. -/
theorem fmtLoop_eq (n d e : Nat) :
    fmtLoop n d e = (d * 1024 ^ Nat.log 1024 n, e + Nat.log 1024 n) :=
  fmtLoopF_eq n n d e (Nat.le_refl n)

/-- Claim C7: FormatSize renders non-negative byte counts below 1024 as the
number followed by " B"; for larger values it renders the value scaled by
the divisor 1024^(e+1) to one decimal, followed by the unit letter of index
e from KMGTPE and "B", where e+1 is the largest scale k whose scaled value
is at least 1 (that is, 1024^k ≤ bytes); and the five listed example values
render as "0 B", "1023 B", "1.0 KB", "1.5 KB" and "1.0 MB". -/
theorem FormatSize_binary_units :
    (FormatSize 0 = "0 B" ∧ FormatSize 1023 = "1023 B" ∧
     FormatSize 1024 = "1.0 KB" ∧ FormatSize 1536 = "1.5 KB" ∧
     FormatSize 1048576 = "1.0 MB") ∧
    (∀ bytes : Int, 0 ≤ bytes → bytes < 1024 →
      FormatSize bytes = toString bytes ++ " B") ∧
    (∀ bytes : Int, 1024 ≤ bytes →
      FormatSize bytes =
        oneDecimal bytes.toNat (1024 ^ (fmtExp bytes + 1)) ++ " " ++
          String.singleton (unitLetters.getD (fmtExp bytes) 'K') ++ "B" ∧
      (∀ k : Nat, 1 ≤ k →
        ((1024 : Nat) ^ k ≤ bytes.toNat ↔ k ≤ fmtExp bytes + 1))) := by
  refine ⟨by decide, ?_, ?_⟩
  · intro bytes _ hlt
    simp [FormatSize, hlt]
  · intro bytes hbytes
    have hn : 1024 ≤ bytes.toNat := by omega
    have hnz : bytes.toNat ≠ 0 := by omega
    have hnotlt : ¬ bytes < 1024 := by omega
    have hL : 0 < Nat.log 1024 bytes.toNat := Nat.log_pos (by omega) hn
    have hdiv : Nat.log 1024 (bytes.toNat / 1024) = Nat.log 1024 bytes.toNat - 1 :=
      Nat.log_div_base 1024 bytes.toNat
    have hexp : fmtExp bytes = Nat.log 1024 bytes.toNat - 1 := by
      simp [fmtExp, fmtLoop_eq, hdiv]
    have hpow : (fmtLoop (bytes.toNat / 1024) 1024 0).1 = 1024 ^ (fmtExp bytes + 1) := by
      rw [fmtLoop_eq, hexp, hdiv]
      simp only [pow_succ]
      ring
    constructor
    · simp only [FormatSize, if_neg hnotlt]
      simp only [fmtExp] at hpow ⊢
      rw [hpow]
    · intro k _
      rw [Nat.pow_le_iff_le_log (by omega) hnz, hexp]
      omega

/-- Witness for claim C7: the large-value conjunct applied at 2048. -/
theorem FormatSize_binary_units_witness :
    FormatSize 2048 =
      oneDecimal (Int.toNat 2048) (1024 ^ (fmtExp 2048 + 1)) ++ " " ++
        String.singleton (unitLetters.getD (fmtExp 2048) 'K') ++ "B" :=
  (FormatSize_binary_units.2.2 2048 (by decide)).1

/-- Claim C10: FormatSize is total over every int64 value: every input
strictly below 1024, including all negative ones, takes the small-value
branch and renders as the decimal number followed by " B", never entering
the scaling loop; in particular FormatSize (-5) = "-5 B". -/
theorem FormatSize_negative_total (bytes : Int) (h : bytes < 1024) :
    FormatSize bytes = toString bytes ++ " B" := by
  simp [FormatSize, h]

/-- Witness for claim C10 at the negative input -5. -/
theorem FormatSize_negative_total_witness :
    FormatSize (-5) = "-5 B" :=
  (FormatSize_negative_total (-5) (by decide)).trans (by decide)

/-- Claim C6: for a target path that does not exist at scan time,
cleanDirectory returns immediately with SkippedDirs = 1, every other
counter zero and no error message. -/
theorem cleanDirectory_missing (c : Cleaner) (p : String) :
    (cleanDirectory c ⟨p, none⟩).SkippedDirs = 1 ∧
    (cleanDirectory c ⟨p, none⟩).TotalFiles = 0 ∧
    (cleanDirectory c ⟨p, none⟩).TotalDirs = 0 ∧
    (cleanDirectory c ⟨p, none⟩).TotalSize = 0 ∧
    (cleanDirectory c ⟨p, none⟩).DeletedFiles = 0 ∧
    (cleanDirectory c ⟨p, none⟩).DeletedDirs = 0 ∧
    (cleanDirectory c ⟨p, none⟩).DeletedSize = 0 ∧
    (cleanDirectory c ⟨p, none⟩).FailedFiles = 0 ∧
    (cleanDirectory c ⟨p, none⟩).FailedDirs = 0 ∧
    (cleanDirectory c ⟨p, none⟩).SkippedFiles = 0 ∧
    (cleanDirectory c ⟨p, none⟩).ErrorMessages = [] :=
  ⟨rfl, rfl, rfl, rfl, rfl, rfl, rfl, rfl, rfl, rfl, rfl⟩

/-- Claim C9: mergeResults adds every counter field of the source onto the
target and appends the source's error messages, in order, after the
target's; in the embedding the source argument is read-only by
construction. -/
theorem mergeResults_fields (target source : CleanupResult) :
    (mergeResults target source).TotalFiles = target.TotalFiles + source.TotalFiles ∧
    (mergeResults target source).TotalDirs = target.TotalDirs + source.TotalDirs ∧
    (mergeResults target source).TotalSize = target.TotalSize + source.TotalSize ∧
    (mergeResults target source).DeletedFiles = target.DeletedFiles + source.DeletedFiles ∧
    (mergeResults target source).DeletedDirs = target.DeletedDirs + source.DeletedDirs ∧
    (mergeResults target source).DeletedSize = target.DeletedSize + source.DeletedSize ∧
    (mergeResults target source).FailedFiles = target.FailedFiles + source.FailedFiles ∧
    (mergeResults target source).FailedDirs = target.FailedDirs + source.FailedDirs ∧
    (mergeResults target source).SkippedFiles = target.SkippedFiles + source.SkippedFiles ∧
    (mergeResults target source).SkippedDirs = target.SkippedDirs + source.SkippedDirs ∧
    (mergeResults target source).ErrorMessages =
      target.ErrorMessages ++ source.ErrorMessages :=
  ⟨rfl, rfl, rfl, rfl, rfl, rfl, rfl, rfl, rfl, rfl, rfl⟩

/-- Claim C4: shouldDelete applies its rules in order with first match
winning: on non-Windows platforms a base name whose first byte is '.'
is refused; on Windows a base name equal to one of desktop.ini, thumbs.db,
Thumbs.db is refused; past those rules, a directory is accepted and a
regular file is accepted exactly when the open-for-write probe and its
close both succeed (open failure or close failure each refuse). -/
theorem shouldDelete_rules (plat : Platform) (name : String)
    (isDir openOk closeOk : Bool) :
    (plat ≠ Platform.windows → startsWithDot name = true →
      shouldDelete plat name isDir openOk closeOk = false) ∧
    (plat = Platform.windows →
      (name = "desktop.ini" ∨ name = "thumbs.db" ∨ name = "Thumbs.db") →
      shouldDelete plat name isDir openOk closeOk = false) ∧
    ((plat = Platform.windows ∨ startsWithDot name = false) →
      (plat ≠ Platform.windows ∨ protectedWindowsName name = false) →
      shouldDelete plat name isDir openOk closeOk = (isDir || (openOk && closeOk))) := by
  refine ⟨?_, ?_, ?_⟩
  · intro hplat hdot
    cases plat with
    | windows => exact absurd rfl hplat
    | other => cases isDir <;> simp [shouldDelete, hdot]
  · intro hplat hname
    subst hplat
    have hprot : protectedWindowsName name = true := by
      rcases hname with h | h | h <;> simp [protectedWindowsName, h]
    cases isDir <;> simp [shouldDelete, hprot]
  · intro h1 h2
    cases plat with
    | windows =>
        have hprot : protectedWindowsName name = false := by
          rcases h2 with h | h
          · exact absurd rfl h
          · exact h
        cases isDir <;> cases openOk <;> cases closeOk <;>
          simp [shouldDelete, hprot]
    | other =>
        have hdot : startsWithDot name = false := by
          rcases h1 with h | h
          · exact absurd h (by simp)
          · exact h
        cases isDir <;> cases openOk <;> cases closeOk <;>
          simp [shouldDelete, hdot]

/-- Witness for claim C4: the dotfile rule refuses ".x" on a non-Windows
platform. -/
theorem shouldDelete_rules_witness :
    shouldDelete Platform.other ".x" false true true = false :=
  (shouldDelete_rules Platform.other ".x" false true true).1
    (by decide) (by decide)

/-- Claim C5 (amended): on its error-free visit the root is excluded from
classification — for an existing readable root directory the result is
exactly the walk of the children started from a zero result, independent
of the root's own deletion flag, so the root contributes no counter and is
never a deletion candidate — while a root-level walk error (directory read
failing after the existence check passed) is recorded as one FailedDirs
count plus one error message on the partial result, without raising. -/
theorem cleanDirectory_root (c : Cleaner) (p n : String) (dOk : Bool)
    (cs : List Entry) :
    cleanDirectory c ⟨p, some (.dir n true true dOk cs)⟩ =
      walkChildren c p cs {} ∧
    cleanDirectory c ⟨p, some (.dir n true false dOk cs)⟩ =
      { FailedDirs := 1, ErrorMessages := ["Walk error for " ++ p] } := by
  constructor
  · rfl
  · simp [cleanDirectory, walkRoot, Entry.lstatOk, recordWalkError]

/-- Counterexample to claim C5 as stated: with an existing root whose
directory read fails, the root walk error is recorded as an error message,
yet the root itself contributes a failed-directory count, contradicting
that the root contributes to no failed counter. -/
theorem cleanDirectory_root_counterexample :
    (cleanDirectory ⟨Platform.other, false⟩
        ⟨"t", some (.dir "t" true false true [])⟩).ErrorMessages =
      ["Walk error for t"] ∧
    (cleanDirectory ⟨Platform.other, false⟩
        ⟨"t", some (.dir "t" true false true [])⟩).FailedDirs = 1 := by
  decide

/-- Claim C3 (amended): a traversal error is isolated to the erroring
entry: a directory whose entry-list read fails contributes one
failed-directory count and one error message, its subtree is skipped and
its siblings continue to be processed; an entry whose lstat fails
contributes one failed-FILE count — the callback receives no FileInfo, so
the tally is file-kind regardless of the entry's actual kind — plus one
error message, and its siblings continue; and in the concrete scenario of
a directory holding one unreadable subdirectory and one deletable file,
the file is still counted and deleted, the unreadable subdirectory yields
one FailedDirs count and one error message, and the run completes. -/
theorem walk_error_isolation :
    (∀ (c : Cleaner) (p nm : String) (dOk : Bool) (sub rest : List Entry)
        (r : CleanupResult),
      walkChildren c p (.dir nm true false dOk sub :: rest) r =
        walkChildren c p rest
          { r with FailedDirs := r.FailedDirs + 1,
                   ErrorMessages := r.ErrorMessages ++
                     ["Walk error for " ++ childPath p nm] }) ∧
    (∀ (c : Cleaner) (p : String) (e : Entry) (rest : List Entry)
        (r : CleanupResult), e.lstatOk = false →
      walkChildren c p (e :: rest) r =
        walkChildren c p rest
          { r with FailedFiles := r.FailedFiles + 1,
                   ErrorMessages := r.ErrorMessages ++
                     ["Walk error for " ++ childPath p e.name] }) ∧
    cleanDirectory ⟨Platform.other, false⟩
        ⟨"t", some (.dir "t" true true true
          [.dir "locked" true false true [.file "inner" 1 true true true true],
           .file "junk" 2 true true true true])⟩ =
      { TotalFiles := 1, TotalSize := 2, DeletedFiles := 1, DeletedSize := 2,
        FailedDirs := 1, ErrorMessages := ["Walk error for t/locked"] } := by
  refine ⟨?_, ?_, by decide⟩
  · intro c p nm dOk sub rest r
    rfl
  · intro c p e rest r h
    simp [walkChildren, h, recordWalkError]

/-- Witness for claim C3: the lstat-failure conjunct applied to one
concrete vanished child. -/
theorem walk_error_isolation_witness :
    walkChildren ⟨Platform.other, false⟩ "t"
        [.file "x" 1 false true true true] {} =
      { FailedFiles := 1, ErrorMessages := ["Walk error for t/x"] } :=
  (walk_error_isolation.2.1 ⟨Platform.other, false⟩ "t"
      (.file "x" 1 false true true true) [] {} (by decide)).trans (by decide)

/-- Counterexample to claim C3 as stated: a subdirectory whose lstat fails
is a traversal error on a directory entry, yet the failure is tallied as
FailedFiles and not FailedDirs — the failure is not recorded for that
entry's kind. -/
theorem walk_error_kind_counterexample :
    (cleanDirectory ⟨Platform.other, false⟩
        ⟨"t", some (.dir "t" true true true
          [.dir "sub" false true true []])⟩).FailedDirs = 0 ∧
    (cleanDirectory ⟨Platform.other, false⟩
        ⟨"t", some (.dir "t" true true true
          [.dir "sub" false true true []])⟩).FailedFiles = 1 ∧
    (cleanDirectory ⟨Platform.other, false⟩
        ⟨"t", some (.dir "t" true true true
          [.dir "sub" false true true []])⟩).ErrorMessages =
      ["Walk error for t/sub"] := by
  decide

/-- Counterexample to claim C1 as stated: one child file whose lstat fails
tallies FailedFiles without ever being counted in TotalFiles, so
DeletedFiles + FailedFiles + SkippedFiles does not equal TotalFiles. -/
theorem file_equation_counterexample :
    ¬ ((cleanDirectory ⟨Platform.other, false⟩
          ⟨"t", some (.dir "t" true true true
            [.file "x" 1 false true true true])⟩).DeletedFiles +
        (cleanDirectory ⟨Platform.other, false⟩
          ⟨"t", some (.dir "t" true true true
            [.file "x" 1 false true true true])⟩).FailedFiles +
        (cleanDirectory ⟨Platform.other, false⟩
          ⟨"t", some (.dir "t" true true true
            [.file "x" 1 false true true true])⟩).SkippedFiles =
        (cleanDirectory ⟨Platform.other, false⟩
          ⟨"t", some (.dir "t" true true true
            [.file "x" 1 false true true true])⟩).TotalFiles) := by
  decide

/-- Counterexample to claim C2 as stated: on a tree whose eligible
directory "a" holds a file, the dry run counts the file and simulates
deleting it, while the real run removes the directory first and the walk
then fails to lstat the already-listed child, so the counter fields of the
two runs differ. -/
theorem dryRun_counterexample :
    (cleanDirectory ⟨Platform.other, true⟩
        ⟨"t", some (.dir "t" true true true
          [.dir "a" true true true
            [.file "f" 5 true true true true]])⟩).TotalFiles = 1 ∧
    (cleanDirectory ⟨Platform.other, false⟩
        ⟨"t", some (.dir "t" true true true
          [.dir "a" true true true
            [.file "f" 5 true true true true]])⟩).TotalFiles = 0 := by
  decide

/-! Helper lemmas for the walk accounting. -/

/-- Visiting a file adds one to TotalFiles and one to exactly one of
DeletedFiles, FailedFiles, SkippedFiles, so the file gap never shrinks and
the file tally and dir gap are unchanged. -/
theorem visitFile_tally (c : Cleaner) (p nm : String) (sz : Int)
    (oOk cOk dOk : Bool) (r : CleanupResult) :
    fileGap r ≤ fileGap (visitFile c p nm sz oOk cOk dOk r) ∧
    dirGap (visitFile c p nm sz oOk cOk dOk r) = dirGap r ∧
    fileTally (visitFile c p nm sz oOk cOk dOk r) = fileTally r := by
  cases hdry : c.dryRun <;>
    by_cases h1 : shouldDelete c.plat nm false oOk cOk = true <;>
      cases dOk <;>
        simp [visitFile, h1, hdry, fileGap, dirGap, fileTally] <;>
          omega

/-- Visiting a directory adds one to TotalDirs and one to exactly one of
DeletedDirs, FailedDirs, SkippedDirs, so the dir gap never shrinks and the
file gap and file tally are unchanged. -/
theorem visitDir_tally (c : Cleaner) (p nm : String) (dOk : Bool)
    (r : CleanupResult) :
    dirGap r ≤ dirGap (visitDir c p nm dOk r).1 ∧
    fileGap (visitDir c p nm dOk r).1 = fileGap r ∧
    fileTally (visitDir c p nm dOk r).1 = fileTally r := by
  cases hdry : c.dryRun <;>
    by_cases h1 : shouldDelete c.plat nm true true true = true <;>
      cases dOk <;>
        simp [visitDir, h1, hdry, fileGap, dirGap, fileTally]

/-- A directory really disappears exactly when it is eligible, the run is
not a dry run and RemoveAll succeeds. -/
theorem visitDir_removed (c : Cleaner) (p nm : String) (dOk : Bool)
    (r : CleanupResult) :
    (visitDir c p nm dOk r).2 =
      (!c.dryRun && shouldDelete c.plat nm true true true && dOk) := by
  cases hdry : c.dryRun <;>
    by_cases h1 : shouldDelete c.plat nm true true true = true <;>
      cases dOk <;>
        simp [visitDir, h1, hdry]

/-- The walk-error branch touches only failed counts and messages, leaving
both deletion gaps unchanged. -/
theorem recordWalkError_gaps (r : CleanupResult) (p : String)
    (d : Option Bool) :
    fileGap (recordWalkError r p d) = fileGap r ∧
    dirGap (recordWalkError r p d) = dirGap r := by
  by_cases h : d = some true <;> simp [recordWalkError, h, fileGap, dirGap]

/-- The lstat-failure reports for the children of a really-deleted
directory leave both deletion gaps unchanged. -/
theorem foldl_walkError_gaps (p : String) (cs : List Entry)
    (r : CleanupResult) :
    fileGap (cs.foldl
      (fun acc ch => recordWalkError acc (childPath p ch.name) none) r) =
      fileGap r ∧
    dirGap (cs.foldl
      (fun acc ch => recordWalkError acc (childPath p ch.name) none) r) =
      dirGap r := by
  induction cs generalizing r with
  | nil => exact ⟨rfl, rfl⟩
  | cons ch rest ih =>
      simp only [List.foldl_cons]
      obtain ⟨h1, h2⟩ := ih (recordWalkError r (childPath p ch.name) none)
      obtain ⟨h3, h4⟩ := recordWalkError_gaps r (childPath p ch.name) none
      exact ⟨h1.trans h3, h2.trans h4⟩

/-- A tally-safe entry had a successful lstat. -/
theorem fileTallySafe_lstatOk (c : Cleaner) (e : Entry)
    (h : fileTallySafe c e = true) : e.lstatOk = true := by
  cases e with
  | file nm sz lOk oOk cOk dOk =>
      simpa [fileTallySafe, Entry.lstatOk] using h
  | dir nm lOk rOk dOk cs =>
      simp only [fileTallySafe, Bool.and_eq_true] at h
      simpa [Entry.lstatOk] using h.1

mutual

/-- Walking one entry never shrinks either deletion gap, and on a
tally-safe entry it leaves the file tally unchanged. -/
theorem walkEntry_tally (c : Cleaner) (p : String) (e : Entry)
    (r : CleanupResult) :
    fileGap r ≤ fileGap (walkEntry c p e r) ∧
    dirGap r ≤ dirGap (walkEntry c p e r) ∧
    (fileTallySafe c e = true →
      fileTally (walkEntry c p e r) = fileTally r) := by
  cases e with
  | file nm sz lOk oOk cOk dOk =>
      obtain ⟨h1, h2, h3⟩ := visitFile_tally c p nm sz oOk cOk dOk r
      exact ⟨h1, le_of_eq h2.symm, fun _ => h3⟩
  | dir nm lOk rOk dOk cs =>
      cases rOk with
      | false =>
          obtain ⟨h1, h2⟩ :=
            recordWalkError_gaps r p (some true)
          refine ⟨le_of_eq h1.symm, le_of_eq h2.symm, fun _ => ?_⟩
          simp [walkEntry, recordWalkError, fileTally]
      | true =>
          obtain ⟨hd1, hd2, hd3⟩ := visitDir_tally c p nm dOk r
          cases hrem : (visitDir c p nm dOk r).2 with
          | true =>
              have hw : walkEntry c p (.dir nm lOk true dOk cs) r =
                  cs.foldl (fun acc ch =>
                    recordWalkError acc (childPath p ch.name) none)
                    (visitDir c p nm dOk r).1 := by
                simp [walkEntry, hrem]
              obtain ⟨hf1, hf2⟩ :=
                foldl_walkError_gaps p cs (visitDir c p nm dOk r).1
              refine ⟨?_, ?_, ?_⟩
              · rw [hw]
                omega
              · rw [hw]
                omega
              · intro hsafe
                rw [visitDir_removed] at hrem
                have hcs : cs.isEmpty = true := by
                  cases hc : cs.isEmpty
                  · exfalso
                    simp [fileTallySafe, hrem, hc] at hsafe
                  · rfl
                have hcs' : cs = [] := by
                  cases cs with
                  | nil => rfl
                  | cons a as => simp at hcs
                subst hcs'
                rw [hw]
                simpa using hd3
          | false =>
              have hw : walkEntry c p (.dir nm lOk true dOk cs) r =
                  walkChildren c p cs (visitDir c p nm dOk r).1 := by
                simp [walkEntry, hrem]
              obtain ⟨hw1, hw2, hw3⟩ :=
                walkChildren_tally c p cs (visitDir c p nm dOk r).1
              refine ⟨?_, ?_, ?_⟩
              · rw [hw]
                omega
              · rw [hw]
                omega
              · intro hsafe
                have hlist : fileTallySafeList c cs = true := by
                  cases hl : fileTallySafeList c cs
                  · exfalso
                    simp [fileTallySafe, hl] at hsafe
                  · rfl
                rw [hw, hw3 hlist, hd3]

/-- Walking a child list never shrinks either deletion gap, and on a
tally-safe list it leaves the file tally unchanged. -/
theorem walkChildren_tally (c : Cleaner) (p : String) (cs : List Entry)
    (r : CleanupResult) :
    fileGap r ≤ fileGap (walkChildren c p cs r) ∧
    dirGap r ≤ dirGap (walkChildren c p cs r) ∧
    (fileTallySafeList c cs = true →
      fileTally (walkChildren c p cs r) = fileTally r) := by
  cases cs with
  | nil => exact ⟨le_refl _, le_refl _, fun _ => rfl⟩
  | cons ch rest =>
      cases hls : ch.lstatOk with
      | true =>
          obtain ⟨h1, h2, h3⟩ :=
            walkEntry_tally c (childPath p ch.name) ch r
          obtain ⟨h4, h5, h6⟩ :=
            walkChildren_tally c p rest (walkEntry c (childPath p ch.name) ch r)
          refine ⟨?_, ?_, ?_⟩
          · simp only [walkChildren, hls, if_true]
            omega
          · simp only [walkChildren, hls, if_true]
            omega
          · intro hsafe
            simp only [fileTallySafeList, Bool.and_eq_true] at hsafe
            simp only [walkChildren, hls, if_true]
            rw [h6 hsafe.2, h3 hsafe.1]
      | false =>
          have hw : walkChildren c p (ch :: rest) r =
              walkChildren c p rest
                (recordWalkError r (childPath p ch.name) none) := by
            simp [walkChildren, hls]
          obtain ⟨h1, h2⟩ :=
            recordWalkError_gaps r (childPath p ch.name) none
          obtain ⟨h4, h5, _⟩ :=
            walkChildren_tally c p rest
              (recordWalkError r (childPath p ch.name) none)
          refine ⟨?_, ?_, ?_⟩
          · rw [hw]
            omega
          · rw [hw]
            omega
          · intro hsafe
            simp only [fileTallySafeList, Bool.and_eq_true] at hsafe
            have hl := fileTallySafe_lstatOk c ch hsafe.1
            rw [hls] at hl
            exact absurd hl (by simp)

end

mutual

/-- On an entry all of whose attempted deletions succeed and whose eligible
directories are childless, a dry-run walk and a real walk produce the same
result from the same starting result. -/
theorem walkEntry_dryReal (plat : Platform) (p : String) (e : Entry)
    (r : CleanupResult) (h : dryRealSafe plat e = true) :
    walkEntry ⟨plat, true⟩ p e r = walkEntry ⟨plat, false⟩ p e r := by
  cases e with
  | file nm sz lOk oOk cOk dOk =>
      cases hs : shouldDelete plat nm false oOk cOk with
      | true =>
          have hd : dOk = true := by
            cases hdel : dOk
            · exfalso
              simp [dryRealSafe, hs, hdel] at h
            · rfl
          subst hd
          simp [walkEntry, visitFile, hs]
      | false =>
          simp [walkEntry, visitFile, hs]
  | dir nm lOk rOk dOk cs =>
      cases rOk with
      | false => simp [walkEntry]
      | true =>
          cases hs : shouldDelete plat nm true true true with
          | true =>
              have hd : dOk = true := by
                cases hdel : dOk
                · exfalso
                  simp [dryRealSafe, hs, hdel] at h
                · rfl
              subst hd
              have hcs : cs = [] := by
                cases cs with
                | nil => rfl
                | cons a as =>
                    exfalso
                    simp [dryRealSafe, hs] at h
              subst hcs
              simp [walkEntry, visitDir, hs, walkChildren]
          | false =>
              have hlist : dryRealSafeList plat cs = true := by
                cases hl : dryRealSafeList plat cs
                · exfalso
                  simp [dryRealSafe, hs, hl] at h
                · rfl
              have hrec := walkChildren_dryReal plat p cs
                { r with TotalDirs := r.TotalDirs + 1,
                         SkippedDirs := r.SkippedDirs + 1 } hlist
              simp only [walkEntry]
              simpa [visitDir, hs] using hrec

/-- On a child list all of whose attempted deletions succeed and whose
eligible directories are childless, a dry-run walk and a real walk produce
the same result from the same starting result. -/
theorem walkChildren_dryReal (plat : Platform) (p : String)
    (cs : List Entry) (r : CleanupResult)
    (h : dryRealSafeList plat cs = true) :
    walkChildren ⟨plat, true⟩ p cs r = walkChildren ⟨plat, false⟩ p cs r := by
  cases cs with
  | nil => rfl
  | cons ch rest =>
      have h1 : dryRealSafe plat ch = true := by
        cases hx : dryRealSafe plat ch
        · exfalso
          simp [dryRealSafeList, hx] at h
        · rfl
      have h2 : dryRealSafeList plat rest = true := by
        cases hx : dryRealSafeList plat rest
        · exfalso
          simp [dryRealSafeList, hx] at h
        · rfl
      cases hls : ch.lstatOk with
      | true =>
          have hw1 : walkChildren ⟨plat, true⟩ p (ch :: rest) r =
              walkChildren ⟨plat, true⟩ p rest
                (walkEntry ⟨plat, true⟩ (childPath p ch.name) ch r) := by
            simp [walkChildren, hls]
          have hw2 : walkChildren ⟨plat, false⟩ p (ch :: rest) r =
              walkChildren ⟨plat, false⟩ p rest
                (walkEntry ⟨plat, false⟩ (childPath p ch.name) ch r) := by
            simp [walkChildren, hls]
          rw [hw1, hw2, walkEntry_dryReal plat (childPath p ch.name) ch r h1]
          exact walkChildren_dryReal plat p rest _ h2
      | false =>
          have hw1 : walkChildren ⟨plat, true⟩ p (ch :: rest) r =
              walkChildren ⟨plat, true⟩ p rest
                (recordWalkError r (childPath p ch.name) none) := by
            simp [walkChildren, hls]
          have hw2 : walkChildren ⟨plat, false⟩ p (ch :: rest) r =
              walkChildren ⟨plat, false⟩ p rest
                (recordWalkError r (childPath p ch.name) none) := by
            simp [walkChildren, hls]
          rw [hw1, hw2]
          exact walkChildren_dryReal plat p rest _ h2

end

/-- Per-target dry-run equivalence under the safety condition. -/
theorem cleanDirectory_dryReal (plat : Platform) (t : Target)
    (h : targetDryRealSafe plat t = true) :
    cleanDirectory ⟨plat, true⟩ t = cleanDirectory ⟨plat, false⟩ t := by
  obtain ⟨p, fs⟩ := t
  cases fs with
  | none => rfl
  | some e =>
      cases e with
      | file nm sz lOk oOk cOk dOk => cases lOk <;> rfl
      | dir nm lOk rOk dOk cs =>
          cases lOk with
          | false => rfl
          | true =>
              cases rOk with
              | false => rfl
              | true =>
                  have hlist : dryRealSafeList plat cs = true := by
                    simpa [targetDryRealSafe] using h
                  have hrec := walkChildren_dryReal plat p cs {} hlist
                  simpa [cleanDirectory, walkRoot, Entry.lstatOk] using hrec

/-- Claim C2 (amended): for a fixed tree, a dry run produces the same
result — all counter fields and even the message list — as a real run,
provided every deletion the real run attempts succeeds and every eligible
directory is childless; without that proviso the runs differ (see the
counterexample), because a really-deleted directory's already-listed
children fail their lstat instead of being counted, and a failed deletion
tallies a failure where the dry run tallies a deletion.  The dry run
touches no filesystem state by construction.  The same equivalence holds
for a whole target list under CleanDirectories. -/
theorem dryRun_equivalence (plat : Platform) (t : Target)
    (targets : List Target) (h : targetDryRealSafe plat t = true)
    (hall : targets.all (targetDryRealSafe plat) = true) :
    cleanDirectory ⟨plat, true⟩ t = cleanDirectory ⟨plat, false⟩ t ∧
    CleanDirectories ⟨plat, true⟩ targets =
      CleanDirectories ⟨plat, false⟩ targets := by
  refine ⟨cleanDirectory_dryReal plat t h, ?_⟩
  unfold CleanDirectories
  have hmap : targets.map (cleanDirectory ⟨plat, true⟩) =
      targets.map (cleanDirectory ⟨plat, false⟩) := by
    apply List.map_congr_left
    intro x hx
    refine cleanDirectory_dryReal plat x ?_
    rw [List.all_eq_true] at hall
    exact hall x hx
  rw [hmap]

/-- Witness for claim C2: a one-file tree whose deletion succeeds gives the
same result in both modes. -/
theorem dryRun_equivalence_witness :
    cleanDirectory ⟨Platform.other, true⟩
        ⟨"t", some (.dir "t" true true true
          [.file "f" 5 true true true true])⟩ =
      cleanDirectory ⟨Platform.other, false⟩
        ⟨"t", some (.dir "t" true true true
          [.file "f" 5 true true true true])⟩ :=
  (dryRun_equivalence Platform.other
    ⟨"t", some (.dir "t" true true true [.file "f" 5 true true true true])⟩
    [] (by decide) (by decide)).1

/-- Folding mergeResults over a list of partial results adds each counter
field: the aggregate field equals the seed's field plus the sum of the
partials' fields. -/
theorem foldl_merge_fields (rs : List CleanupResult) (z : CleanupResult) :
    (rs.foldl mergeResults z).TotalFiles =
      z.TotalFiles + (rs.map CleanupResult.TotalFiles).sum ∧
    (rs.foldl mergeResults z).TotalDirs =
      z.TotalDirs + (rs.map CleanupResult.TotalDirs).sum ∧
    (rs.foldl mergeResults z).TotalSize =
      z.TotalSize + (rs.map CleanupResult.TotalSize).sum ∧
    (rs.foldl mergeResults z).DeletedFiles =
      z.DeletedFiles + (rs.map CleanupResult.DeletedFiles).sum ∧
    (rs.foldl mergeResults z).DeletedDirs =
      z.DeletedDirs + (rs.map CleanupResult.DeletedDirs).sum ∧
    (rs.foldl mergeResults z).DeletedSize =
      z.DeletedSize + (rs.map CleanupResult.DeletedSize).sum ∧
    (rs.foldl mergeResults z).FailedFiles =
      z.FailedFiles + (rs.map CleanupResult.FailedFiles).sum ∧
    (rs.foldl mergeResults z).FailedDirs =
      z.FailedDirs + (rs.map CleanupResult.FailedDirs).sum ∧
    (rs.foldl mergeResults z).SkippedFiles =
      z.SkippedFiles + (rs.map CleanupResult.SkippedFiles).sum ∧
    (rs.foldl mergeResults z).SkippedDirs =
      z.SkippedDirs + (rs.map CleanupResult.SkippedDirs).sum := by
  induction rs generalizing z with
  | nil => simp
  | cons x rest ih =>
      obtain ⟨h1, h2, h3, h4, h5, h6, h7, h8, h9, h10⟩ := ih (mergeResults z x)
      simp only [List.foldl_cons, List.map_cons, List.sum_cons]
      refine ⟨?_, ?_, ?_, ?_, ?_, ?_, ?_, ?_, ?_, ?_⟩
      · rw [h1]
        simp only [mergeResults]
        omega
      · rw [h2]
        simp only [mergeResults]
        omega
      · rw [h3]
        simp only [mergeResults]
        omega
      · rw [h4]
        simp only [mergeResults]
        omega
      · rw [h5]
        simp only [mergeResults]
        omega
      · rw [h6]
        simp only [mergeResults]
        omega
      · rw [h7]
        simp only [mergeResults]
        omega
      · rw [h8]
        simp only [mergeResults]
        omega
      · rw [h9]
        simp only [mergeResults]
        omega
      · rw [h10]
        simp only [mergeResults]
        omega

/-- Per-target accounting: both deletion gaps are nonnegative, and under
the tally-safety condition the file equation balances exactly. -/
theorem cleanDirectory_tally (c : Cleaner) (t : Target) :
    0 ≤ fileGap (cleanDirectory c t) ∧ 0 ≤ dirGap (cleanDirectory c t) ∧
    (targetFileTallySafe c t = true → fileTally (cleanDirectory c t) = 0) := by
  obtain ⟨p, fs⟩ := t
  cases fs with
  | none =>
      refine ⟨?_, ?_, fun _ => ?_⟩ <;>
        simp [cleanDirectory, fileGap, dirGap, fileTally]
  | some e =>
      cases e with
      | file nm sz lOk oOk cOk dOk =>
          cases lOk with
          | false =>
              refine ⟨?_, ?_, fun hsafe => ?_⟩
              · simp [cleanDirectory, walkRoot, Entry.lstatOk, recordWalkError, fileGap]
              · simp [cleanDirectory, walkRoot, Entry.lstatOk, recordWalkError, dirGap]
              · exfalso
                simp [targetFileTallySafe] at hsafe
          | true =>
              refine ⟨?_, ?_, fun _ => ?_⟩ <;>
                simp [cleanDirectory, walkRoot, Entry.lstatOk, fileGap, dirGap, fileTally]
      | dir nm lOk rOk dOk cs =>
          cases lOk with
          | false =>
              refine ⟨?_, ?_, fun hsafe => ?_⟩
              · simp [cleanDirectory, walkRoot, Entry.lstatOk, recordWalkError, fileGap]
              · simp [cleanDirectory, walkRoot, Entry.lstatOk, recordWalkError, dirGap]
              · exfalso
                simp [targetFileTallySafe] at hsafe
          | true =>
              cases rOk with
              | false =>
                  refine ⟨?_, ?_, fun _ => ?_⟩ <;>
                    simp [cleanDirectory, walkRoot, Entry.lstatOk, recordWalkError,
                      fileGap, dirGap, fileTally]
              | true =>
                  obtain ⟨h1, h2, h3⟩ := walkChildren_tally c p cs {}
                  have hroot : cleanDirectory c ⟨p, some (.dir nm true true dOk cs)⟩ =
                      walkChildren c p cs {} := rfl
                  have hza : fileGap ({} : CleanupResult) = 0 := rfl
                  have hzb : dirGap ({} : CleanupResult) = 0 := rfl
                  have hzc : fileTally ({} : CleanupResult) = 0 := rfl
                  refine ⟨?_, ?_, fun hsafe => ?_⟩
                  · rw [hroot]
                    omega
                  · rw [hroot]
                    omega
                  · rw [hroot]
                    have hlist : fileTallySafeList c cs = true := by
                      simpa [targetFileTallySafe] using hsafe
                    have h4 := h3 hlist
                    omega

/-- Summed file equation over a list of tally-safe targets. -/
theorem sum_file_equation (c : Cleaner) (targets : List Target)
    (hall : targets.all (targetFileTallySafe c) = true) :
    (targets.map fun x => (cleanDirectory c x).DeletedFiles).sum +
      (targets.map fun x => (cleanDirectory c x).FailedFiles).sum +
      (targets.map fun x => (cleanDirectory c x).SkippedFiles).sum =
      (targets.map fun x => (cleanDirectory c x).TotalFiles).sum := by
  induction targets with
  | nil => simp
  | cons a as ihl =>
      rw [List.all_cons, Bool.and_eq_true] at hall
      obtain ⟨_, _, a3⟩ := cleanDirectory_tally c a
      have h3 := a3 hall.1
      simp only [fileTally] at h3
      have h4 := ihl hall.2
      simp only [List.map_cons, List.sum_cons]
      omega

/-- Claim C1 (amended): for every run, DeletedFiles ≤ TotalFiles and
DeletedDirs ≤ TotalDirs, both for per-directory partial results of
cleanDirectory and for the merged CleanDirectories aggregate; and
DeletedFiles + FailedFiles + SkippedFiles = TotalFiles holds provided the
traversal meets no lstat failure and no really-deleted directory had
listed children — a walk error of file kind increments FailedFiles without
incrementing TotalFiles, so in general the left side can exceed
TotalFiles. -/
theorem cleanup_accounting (c : Cleaner) (t : Target)
    (targets : List Target) :
    (cleanDirectory c t).DeletedFiles ≤ (cleanDirectory c t).TotalFiles ∧
    (cleanDirectory c t).DeletedDirs ≤ (cleanDirectory c t).TotalDirs ∧
    (CleanDirectories c targets).DeletedFiles ≤
      (CleanDirectories c targets).TotalFiles ∧
    (CleanDirectories c targets).DeletedDirs ≤
      (CleanDirectories c targets).TotalDirs ∧
    (targetFileTallySafe c t = true →
      (cleanDirectory c t).DeletedFiles + (cleanDirectory c t).FailedFiles +
        (cleanDirectory c t).SkippedFiles = (cleanDirectory c t).TotalFiles) ∧
    (targets.all (targetFileTallySafe c) = true →
      (CleanDirectories c targets).DeletedFiles +
        (CleanDirectories c targets).FailedFiles +
        (CleanDirectories c targets).SkippedFiles =
        (CleanDirectories c targets).TotalFiles) := by
  obtain ⟨g1, g2, g3⟩ := cleanDirectory_tally c t
  obtain ⟨m1, m2, m3, m4, m5, m6, m7, m8, m9, m10⟩ :=
    foldl_merge_fields (targets.map (cleanDirectory c)) {}
  have hz : ∀ x : Int, ({} : CleanupResult).TotalFiles + x = x := fun x => by
    simp
  refine ⟨?_, ?_, ?_, ?_, ?_, ?_⟩
  · simp only [fileGap] at g1
    omega
  · simp only [dirGap] at g2
    omega
  · show (CleanDirectories c targets).DeletedFiles ≤
      (CleanDirectories c targets).TotalFiles
    unfold CleanDirectories
    rw [m4, m1]
    have hle : ((targets.map (cleanDirectory c)).map CleanupResult.DeletedFiles).sum ≤
        ((targets.map (cleanDirectory c)).map CleanupResult.TotalFiles).sum := by
      simp only [List.map_map]
      apply List.sum_le_sum
      intro x _
      obtain ⟨a1, _, _⟩ := cleanDirectory_tally c x
      simp only [fileGap] at a1
      simp only [Function.comp_apply]
      omega
    have hzd : ({} : CleanupResult).DeletedFiles = 0 := rfl
    have hzt : ({} : CleanupResult).TotalFiles = 0 := rfl
    omega
  · show (CleanDirectories c targets).DeletedDirs ≤
      (CleanDirectories c targets).TotalDirs
    unfold CleanDirectories
    rw [m5, m2]
    have hle : ((targets.map (cleanDirectory c)).map CleanupResult.DeletedDirs).sum ≤
        ((targets.map (cleanDirectory c)).map CleanupResult.TotalDirs).sum := by
      simp only [List.map_map]
      apply List.sum_le_sum
      intro x _
      obtain ⟨_, a2, _⟩ := cleanDirectory_tally c x
      simp only [dirGap] at a2
      simp only [Function.comp_apply]
      omega
    have hzd : ({} : CleanupResult).DeletedDirs = 0 := rfl
    have hzt : ({} : CleanupResult).TotalDirs = 0 := rfl
    omega
  · intro hsafe
    have h4 := g3 hsafe
    simp only [fileTally] at h4
    omega
  · intro hall
    show (CleanDirectories c targets).DeletedFiles +
        (CleanDirectories c targets).FailedFiles +
        (CleanDirectories c targets).SkippedFiles =
        (CleanDirectories c targets).TotalFiles
    unfold CleanDirectories
    rw [m4, m7, m9, m1]
    have hsum := sum_file_equation c targets hall
    have he : ∀ f : CleanupResult → Int,
        ((targets.map (cleanDirectory c)).map f).sum =
          (targets.map fun x => f (cleanDirectory c x)).sum := by
      intro f
      simp [List.map_map, Function.comp_def]
    rw [he CleanupResult.DeletedFiles, he CleanupResult.FailedFiles,
      he CleanupResult.SkippedFiles, he CleanupResult.TotalFiles]
    have hzd : ({} : CleanupResult).DeletedFiles = 0 := rfl
    have hzf : ({} : CleanupResult).FailedFiles = 0 := rfl
    have hzs : ({} : CleanupResult).SkippedFiles = 0 := rfl
    have hzt : ({} : CleanupResult).TotalFiles = 0 := rfl
    omega

/-- Witness for claim C1: the balanced file equation on a concrete
error-free run. -/
theorem cleanup_accounting_witness :
    (cleanDirectory ⟨Platform.other, false⟩
        ⟨"t", some (.dir "t" true true true
          [.file "junk" 2 true true true true])⟩).DeletedFiles +
      (cleanDirectory ⟨Platform.other, false⟩
        ⟨"t", some (.dir "t" true true true
          [.file "junk" 2 true true true true])⟩).FailedFiles +
      (cleanDirectory ⟨Platform.other, false⟩
        ⟨"t", some (.dir "t" true true true
          [.file "junk" 2 true true true true])⟩).SkippedFiles =
      (cleanDirectory ⟨Platform.other, false⟩
        ⟨"t", some (.dir "t" true true true
          [.file "junk" 2 true true true true])⟩).TotalFiles :=
  (cleanup_accounting ⟨Platform.other, false⟩
    ⟨"t", some (.dir "t" true true true [.file "junk" 2 true true true true])⟩
    []).2.2.2.2.1 (by decide)

/-- Claim C8: merging the per-target partial results in any arrival order
yields the same ten counters as the sequential merge, and those counters
are exactly the field-wise sums of the per-target cleanDirectory results;
every target contributes exactly its own partial result to the sum (the
model maps each target to one partial result, so none is processed twice
or dropped), and a missing target still contributes a partial result
recording one skipped directory. -/
theorem CleanDirectories_order_independent (c : Cleaner)
    (targets : List Target) (rs : List CleanupResult)
    (h : rs.Perm (targets.map (cleanDirectory c))) :
    counters (rs.foldl mergeResults {}) =
      counters (CleanDirectories c targets) ∧
    counters (CleanDirectories c targets) =
      [(targets.map fun x => (cleanDirectory c x).TotalFiles).sum,
       (targets.map fun x => (cleanDirectory c x).TotalDirs).sum,
       (targets.map fun x => (cleanDirectory c x).TotalSize).sum,
       (targets.map fun x => (cleanDirectory c x).DeletedFiles).sum,
       (targets.map fun x => (cleanDirectory c x).DeletedDirs).sum,
       (targets.map fun x => (cleanDirectory c x).DeletedSize).sum,
       (targets.map fun x => (cleanDirectory c x).FailedFiles).sum,
       (targets.map fun x => (cleanDirectory c x).FailedDirs).sum,
       (targets.map fun x => (cleanDirectory c x).SkippedFiles).sum,
       (targets.map fun x => (cleanDirectory c x).SkippedDirs).sum] ∧
    (∀ t ∈ targets, t.fs = none → (cleanDirectory c t).SkippedDirs = 1) := by
  obtain ⟨n1, n2, n3, n4, n5, n6, n7, n8, n9, n10⟩ :=
    foldl_merge_fields rs {}
  obtain ⟨m1, m2, m3, m4, m5, m6, m7, m8, m9, m10⟩ :=
    foldl_merge_fields (targets.map (cleanDirectory c)) {}
  have he : ∀ f : CleanupResult → Int,
      ((targets.map (cleanDirectory c)).map f).sum =
        (targets.map fun x => f (cleanDirectory c x)).sum := by
    intro f
    simp [List.map_map, Function.comp_def]
  have hp : ∀ f : CleanupResult → Int,
      (rs.map f).sum = ((targets.map (cleanDirectory c)).map f).sum :=
    fun f => (h.map f).sum_eq
  refine ⟨?_, ?_, ?_⟩
  · show counters (rs.foldl mergeResults {}) =
      counters ((targets.map (cleanDirectory c)).foldl mergeResults {})
    simp only [counters]
    rw [n1, n2, n3, n4, n5, n6, n7, n8, n9, n10,
      m1, m2, m3, m4, m5, m6, m7, m8, m9, m10,
      hp CleanupResult.TotalFiles, hp CleanupResult.TotalDirs,
      hp CleanupResult.TotalSize, hp CleanupResult.DeletedFiles,
      hp CleanupResult.DeletedDirs, hp CleanupResult.DeletedSize,
      hp CleanupResult.FailedFiles, hp CleanupResult.FailedDirs,
      hp CleanupResult.SkippedFiles, hp CleanupResult.SkippedDirs]
  · show counters ((targets.map (cleanDirectory c)).foldl mergeResults {}) = _
    simp only [counters]
    rw [m1, m2, m3, m4, m5, m6, m7, m8, m9, m10,
      he CleanupResult.TotalFiles, he CleanupResult.TotalDirs,
      he CleanupResult.TotalSize, he CleanupResult.DeletedFiles,
      he CleanupResult.DeletedDirs, he CleanupResult.DeletedSize,
      he CleanupResult.FailedFiles, he CleanupResult.FailedDirs,
      he CleanupResult.SkippedFiles, he CleanupResult.SkippedDirs]
    norm_num
  · intro t _ hnone
    obtain ⟨p, fs⟩ := t
    simp only at hnone
    subst hnone
    rfl

/-- Witness for claim C8: two concrete targets merged in reversed arrival
order give the sequential counters. -/
theorem CleanDirectories_order_independent_witness :
    counters ([cleanDirectory ⟨Platform.other, false⟩
        ⟨"b", some (.file "b" 3 true true true true)⟩,
      cleanDirectory ⟨Platform.other, false⟩ ⟨"a", none⟩].foldl
        mergeResults {}) =
      counters (CleanDirectories ⟨Platform.other, false⟩
        [⟨"a", none⟩, ⟨"b", some (.file "b" 3 true true true true)⟩]) :=
  (CleanDirectories_order_independent ⟨Platform.other, false⟩
    [⟨"a", none⟩, ⟨"b", some (.file "b" 3 true true true true)⟩]
    [cleanDirectory ⟨Platform.other, false⟩
        ⟨"b", some (.file "b" 3 true true true true)⟩,
      cleanDirectory ⟨Platform.other, false⟩ ⟨"a", none⟩]
    (by decide)).1

end TempDeleter
